import Mathlib

/-!
# Service endpoint resolution (package `discovery`)

A shallow embedding of the Go package `discovery` (files `resolver.go`,
`fallback.go`, `decorator.go`, `dns.go`, `env.go`) and machine-checked statements
about it.

Modelling conventions

* A Go `string` is a Lean `String` (a sequence of Unicode code points; byte
  strings that are not valid UTF-8 are outside the model).
* A Go result pair `(*url.URL, error)` is `Option URL × Option error`, where
  `none` is Go's `nil`.
* Go code with effects (a DNS query, a read of the process environment, a call
  on a collaborator behind an interface) is a state-passing function over a
  world state `σ`: it takes the world before the call and returns its result
  together with the world after the call.
* An interface value is the record of its methods.
* `panic` in a constructor is an `Except.error` carrying the panic message.
* `fmt.Sprintf` with `%s` and `%d` verbs only is string concatenation.
-/

set_option autoImplicit false

namespace discovery

/-! ## Data model -/

/-- The fields of `net/url.URL` that travel through this package. The package
itself only ever writes `Scheme` and `Host`; the other fields are carried along
untouched when a URL produced elsewhere is passed through. -/
structure URL where
  Scheme : String
  Host : String
  Path : String
  RawQuery : String
  Fragment : String
  deriving DecidableEq, Repr

/-- Values of Go's `error` interface as this package and `github.com/pkg/errors`
produce them. `fundamental` is an error with a message of its own: the result of
`errors.New`, and every error of a collaborator, which is seen only through its
`Error()` text. `withMessage` and `withStack` are the two layers of `pkg/errors`:
a context message around a cause, and a stack trace around an error. The recorded
stack itself is not modelled. -/
inductive error where
  | fundamental (msg : String)
  | withMessage (cause : error) (msg : String)
  | withStack (err : error)
  deriving DecidableEq, Repr

/-- The `Error()` method: the message of an error. A `withMessage` prints its
message, a colon and a blank, then the cause; a `withStack` prints the error it
annotates. -/
def error.Error : error → String
  | .fundamental msg => msg
  | .withMessage cause msg => msg ++ ": " ++ cause.Error
  | .withStack err => err.Error

/-- The `Unwrap()` method of `pkg/errors` (and its `Cause()` method, which returns
the same): one layer down. A `withMessage` gives its cause, a `withStack` gives the
error it annotates, and an error with a message of its own has nothing below. -/
def error.Unwrap : error → Option error
  | .fundamental _ => none
  | .withMessage cause _ => some cause
  | .withStack err => some err

/-- The function `errors.Cause`: follow the layers down to the first error that is
not a layer of `pkg/errors`. -/
def errors.Cause : error → error
  | .fundamental msg => .fundamental msg
  | .withMessage cause _ => errors.Cause cause
  | .withStack err => errors.Cause err

/-- The function `errors.New`. -/
def errors.New (message : String) : error := error.fundamental message

/-- The function `errors.Wrap`, on a non-nil error (the only way the package calls
it): a `withMessage` around the error, inside a `withStack`. -/
def errors.Wrap (err : error) (message : String) : error :=
  error.withStack (error.withMessage err message)

/-- What `Resolve` returns: `(*url.URL, error)`. -/
abbrev Result := Option URL × Option error

/-- The interface `Resolver` of resolver.go. -/
structure Resolver (σ : Type) where
  Resolve : String → String → σ → Result × σ

/-! ## fallback.go -/

/-- The constant `maxCalls`. -/
def maxCalls : Nat := 128

/-- The struct `fallbackResolver`. -/
structure fallbackResolver (σ : Type) where
  resolvers : List (Resolver σ)

/-- The `for _, r := range f.resolvers` loop of `fallbackResolver.Resolve` together
with the code after it. The arguments are the part of the slice still to be
visited, the counter `c`, the slice `ignoredErrors` and the world. -/
def fallbackResolver.loop {σ : Type} (portName serviceName : String) :
    List (Resolver σ) → Nat → List String → σ → Result × σ
  | [], _, ignoredErrors, w =>
      ((none, some (errors.New
        ("failed to resolve \"" ++ serviceName ++ "\" with the given port \"" ++ portName ++
          "\" URL: all resolvers are failed with errors: \n" ++
          "\n".intercalate ignoredErrors))), w)
  | r :: rest, c, ignoredErrors, w =>
      let c := c + 1
      if c > maxCalls then
        ((none, some (errors.New "failed to call Resolve: maximum number of calls exceeded")), w)
      else
        match r.Resolve portName serviceName w with
        | ((_, some err), w1) =>
            fallbackResolver.loop portName serviceName rest c (ignoredErrors ++ [err.Error]) w1
        | ((serviceUrl, none), w1) => ((serviceUrl, none), w1)

/-- The method `fallbackResolver.Resolve`. -/
def fallbackResolver.Resolve {σ : Type} (f : fallbackResolver σ)
    (portName serviceName : String) (w : σ) : Result × σ :=
  fallbackResolver.loop portName serviceName f.resolvers 0 [] w

/-- A `*fallbackResolver` seen as a `Resolver`. -/
def fallbackResolver.toResolver {σ : Type} (f : fallbackResolver σ) : Resolver σ :=
  ⟨f.Resolve⟩

/-- The constructor `NewFallbackResolver`. -/
def NewFallbackResolver {σ : Type} (resolvers : List (Resolver σ)) :
    Except String (fallbackResolver σ) :=
  if resolvers.length = 0 then
    Except.error "at least one resolver is expected"
  else
    Except.ok { resolvers := resolvers }

/-! ## decorator.go -/

/-- The struct `schemeDecorator`. The Go map `portNameScheme` is the list of its
key and value pairs; a lookup compares keys for equality of strings. -/
structure schemeDecorator (σ : Type) where
  innerResolver : Resolver σ
  portNameScheme : List (String × String)

/-- The constructor `NewSchemeDecorator`. -/
def NewSchemeDecorator {σ : Type} (innerResolver : Resolver σ)
    (portNameScheme : List (String × String)) : schemeDecorator σ :=
  { innerResolver := innerResolver, portNameScheme := portNameScheme }

/-- The method `schemeDecorator.Resolve`. Assigning `serviceUrl.Scheme` is an update
of that one field of the URL returned. -/
def schemeDecorator.Resolve {σ : Type} (s : schemeDecorator σ)
    (portName serviceName : String) (w : σ) : Result × σ :=
  match s.portNameScheme.lookup portName with
  | some scheme =>
      match s.innerResolver.Resolve portName serviceName w with
      | ((some serviceUrl, err), w1) => ((some { serviceUrl with Scheme := scheme }, err), w1)
      | ((none, err), w1) => ((none, err), w1)
  | none => s.innerResolver.Resolve portName serviceName w

/-- A `schemeDecorator` seen as a `Resolver`. -/
def schemeDecorator.toResolver {σ : Type} (s : schemeDecorator σ) : Resolver σ :=
  ⟨s.Resolve⟩

/-! ## dns.go -/

/-- The struct `net.SRV`; its three numeric fields are `uint16` in Go. A slice
`[]*net.SRV` is a list of such records (its entries are non-nil pointers). -/
structure SRV where
  Target : String
  Port : Nat
  Priority : Nat
  Weight : Nat
  deriving DecidableEq, Repr

/-- The interface `SRVResolver`: `LookupSRV(service, proto, name)` returns
`(cname, addrs, err)`. -/
structure SRVResolver (σ : Type) where
  LookupSRV : String → String → String → σ → (String × List SRV × Option error) × σ

/-- The struct `defaultDNSResolver`. -/
structure defaultDNSResolver (σ : Type) where
  srvResolver : SRVResolver σ
  proto : String

/-- The constructor `NewDNSResolver`. -/
def NewDNSResolver {σ : Type} (srvResolver : SRVResolver σ) (proto : String) :
    Except String (defaultDNSResolver σ) :=
  if proto ≠ "tcp" ∧ proto ≠ "udp" then
    Except.error
      ("invalid argument \"proto\" is given - expected \"tcp\" or \"udp\", got \"" ++
        proto ++ "\"")
  else
    Except.ok { srvResolver := srvResolver, proto := proto }

/-- The method `defaultDNSResolver.Resolve`. -/
def defaultDNSResolver.Resolve {σ : Type} (d : defaultDNSResolver σ)
    (portName serviceName : String) (w : σ) : Result × σ :=
  match d.srvResolver.LookupSRV portName d.proto serviceName w with
  | ((_, _, some err), w1) =>
      ((none, some (errors.Wrap err "failed to lookup SRV DNS record")), w1)
  | ((_, addrs, none), w1) =>
      match addrs with
      | [] => ((none, some (errors.New "record is not found")), w1)
      | addr :: _ =>
          ((some { Scheme := d.proto, Host := addr.Target ++ ":" ++ toString addr.Port,
                   Path := "", RawQuery := "", Fragment := "" }, none), w1)

/-- A `*defaultDNSResolver` seen as a `Resolver`. -/
def defaultDNSResolver.toResolver {σ : Type} (d : defaultDNSResolver σ) : Resolver σ :=
  ⟨d.Resolve⟩

/-! ## Library functions used by env.go -/

/-- The function `unicode.ToUpper`. A rune up to `unicode.MaxASCII` is mapped by the
ASCII rule in the library source; a rune above it is looked up in the Unicode case
tables, `unicode.To(unicode.UpperCase, r)`, which are the parameter `upperCase`. -/
def unicode.ToUpper (upperCase : Char → Char) (r : Char) : Char :=
  if r.toNat ≤ 0x7F then
    if 'a'.toNat ≤ r.toNat ∧ r.toNat ≤ 'z'.toNat then
      Char.ofNat (r.toNat - ('a'.toNat - 'A'.toNat))
    else r
  else upperCase r

/-- The function `strings.ToUpper`: every rune mapped by `unicode.ToUpper`. -/
def strings.ToUpper (upperCase : Char → Char) (s : String) : String :=
  ⟨s.data.map (unicode.ToUpper upperCase)⟩

/-- The scan of `strings.Replace` for an `old` text of one character: every
occurrence of `old` gives way to `new`, from left to right. -/
def strings.Replace.go (old : Char) (new : List Char) : List Char → List Char
  | [] => []
  | c :: cs => if c = old then new ++ strings.Replace.go old new cs
      else c :: strings.Replace.go old new cs

/-- The function `strings.Replace(s, old, new, -1)`, for an `old` text of one
character (no limit on the number of replacements). -/
def strings.Replace (s : String) (old : Char) (new : String) : String :=
  ⟨strings.Replace.go old new.data s.data⟩

/-- The function `os.Getenv` over the process environment `environ` held in the
world: the value of the variable, empty when the variable is not set. -/
def os.Getenv {σ : Type} (environ : σ → String → Option String) (w : σ) (key : String) :
    String :=
  (environ w key).getD ""

/-! ## env.go -/

/-- One character matches the class `[^a-zA-Z0-9_]` of the pattern
`envVarNameValidCharactersStr`. -/
def envVarNameValidCharactersStr (c : Char) : Bool :=
  !(decide ('a'.toNat ≤ c.toNat ∧ c.toNat ≤ 'z'.toNat) ||
    decide ('A'.toNat ≤ c.toNat ∧ c.toNat ≤ 'Z'.toNat) ||
    decide ('0'.toNat ≤ c.toNat ∧ c.toNat ≤ '9'.toNat) ||
    decide (c = '_'))

/-- The scan of `envVarNameValidCharactersRegExp.ReplaceAllString`: the pattern is the
class repeated one or more times, so a match is a maximal run of characters of the
class, and every run is replaced by `repl` once. The flag tells whether the
character before was in a run. -/
def envVarNameValidCharactersRegExp.scan (repl : List Char) : Bool → List Char → List Char
  | _, [] => []
  | inRun, c :: cs =>
      if envVarNameValidCharactersStr c then
        if inRun then envVarNameValidCharactersRegExp.scan repl true cs
        else repl ++ envVarNameValidCharactersRegExp.scan repl true cs
      else c :: envVarNameValidCharactersRegExp.scan repl false cs

/-- The method `envVarNameValidCharactersRegExp.ReplaceAllString`, for a replacement
text without `$`. -/
def envVarNameValidCharactersRegExp.ReplaceAllString (src repl : String) : String :=
  ⟨envVarNameValidCharactersRegExp.scan repl.data false src.data⟩

/-- The function `envNormalizeName`. -/
def envNormalizeName (upperCase : Char → Char) (name : String) : String :=
  let name := strings.Replace name '-' "_"
  let name := strings.ToUpper upperCase name
  let name := envVarNameValidCharactersRegExp.ReplaceAllString name ""
  name

/-- The local `envVarPortName` of `envResolver.Resolve`. -/
def envVarPortName (upperCase : Char → Char) (portName serviceName : String) : String :=
  envNormalizeName upperCase serviceName ++ "_SERVICE_PORT_" ++
    envNormalizeName upperCase portName

/-- The local `envVarServiceName` of `envResolver.Resolve`. -/
def envVarServiceName (upperCase : Char → Char) (serviceName : String) : String :=
  envNormalizeName upperCase serviceName ++ "_SERVICE_HOST"

/-- The struct `envResolver`, which has no field. -/
structure envResolver where
  deriving DecidableEq, Repr

/-- The constructor `NewEnvResolver`. -/
def NewEnvResolver : envResolver := {}

/-- The method `envResolver.Resolve`. -/
def envResolver.Resolve {σ : Type} (upperCase : Char → Char)
    (environ : σ → String → Option String) (_ : envResolver)
    (portName serviceName : String) (w : σ) : Result × σ :=
  let host := os.Getenv environ w (envVarServiceName upperCase serviceName)
  if host = "" then
    ((none, some (errors.New
      ("failed to find service(" ++ serviceName ++ ") host: \"" ++
        envVarServiceName upperCase serviceName ++
        "\" environment variable is not set"))), w)
  else
    let port := os.Getenv environ w (envVarPortName upperCase portName serviceName)
    if port = "" then
      ((none, some (errors.New
        ("failed to find service(" ++ serviceName ++ ") port(" ++ portName ++ "): \"" ++
          envVarPortName upperCase portName serviceName ++
          "\" environment variable is not set"))), w)
    else
      ((some { Scheme := "", Host := host ++ ":" ++ port,
               Path := "", RawQuery := "", Fragment := "" }, none), w)

/-- A `*envResolver` seen as a `Resolver`. -/
def envResolver.toResolver {σ : Type} (upperCase : Char → Char)
    (environ : σ → String → Option String) (e : envResolver) : Resolver σ :=
  ⟨e.Resolve upperCase environ⟩

/-! ## Notions of the specification -/

/-- The resolvers obtained from the four constructors: a DNS resolver over any
lookup capability, the environment resolver, a fallback resolver over resolvers
obtained the same way, a scheme decorator over a resolver obtained the same way. -/
inductive Built {σ : Type} (upperCase : Char → Char) (environ : σ → String → Option String) :
    Resolver σ → Prop
  | dns (srvResolver : SRVResolver σ) (proto : String) (d : defaultDNSResolver σ) :
      NewDNSResolver srvResolver proto = Except.ok d → Built upperCase environ d.toResolver
  | env : Built upperCase environ (NewEnvResolver.toResolver upperCase environ)
  | fallback (resolvers : List (Resolver σ)) (f : fallbackResolver σ) :
      (∀ r ∈ resolvers, Built upperCase environ r) →
      NewFallbackResolver resolvers = Except.ok f → Built upperCase environ f.toResolver
  | scheme (innerResolver : Resolver σ) (portNameScheme : List (String × String)) :
      Built upperCase environ innerResolver →
      Built upperCase environ (NewSchemeDecorator innerResolver portNameScheme).toResolver

/-- A result is either a URL without an error or an error without a URL. -/
def urlXorError (res : Result) : Prop :=
  (res.1 ≠ none ∧ res.2 = none) ∨ (res.1 = none ∧ res.2 ≠ none)

/-- One character is in the class `[A-Za-z0-9_]`. -/
def isNameCharacter (c : Char) : Bool :=
  decide ('A'.toNat ≤ c.toNat ∧ c.toNat ≤ 'Z'.toNat) ||
    decide ('a'.toNat ≤ c.toNat ∧ c.toNat ≤ 'z'.toNat) ||
    decide ('0'.toNat ≤ c.toNat ∧ c.toNat ≤ '9'.toNat) ||
    decide (c = '_')

/-- The name derivation `normalize` in the words of the specification: replace `-`
with `_`, uppercase, then strip every character not in `[A-Za-z0-9_]`, each step
character by character. -/
def normalize (upperCase : Char → Char) (x : String) : String :=
  ⟨((x.data.map (fun c => if c = '-' then '_' else c)).map
      (unicode.ToUpper upperCase)).filter isNameCharacter⟩

/-- Two outcomes of a call agree on the URL, on whether there is an error, and on the
world left; they may differ in the text of the error. -/
def sameOutcome {σ : Type} (r1 r2 : Result × σ) : Prop :=
  r1.1.1 = r2.1.1 ∧ (r1.1.2 = none ↔ r2.1.2 = none) ∧ r1.2 = r2.2

/-- One character is in the class `[A-Z0-9_]`. -/
def isUpperDigitUnderscore (c : Char) : Bool :=
  decide ('A'.toNat ≤ c.toNat ∧ c.toNat ≤ 'Z'.toNat) ||
    decide ('0'.toNat ≤ c.toNat ∧ c.toNat ≤ '9'.toNat) ||
    decide (c = '_')

/-- A case table for runes above ASCII with the two entries of the Unicode tables
whose upper-case image is an ASCII letter, dotless i (U+0131) and long s (U+017F),
and no change elsewhere. -/
def asciiImages (r : Char) : Char :=
  if r = 'ı' then 'I' else if r = 'ſ' then 'S' else r

/-! ## Observing calls -/

/-- One recorded invocation of `Resolve` on an entry of a resolver list. -/
structure Call where
  index : Nat
  portName : String
  serviceName : String
  deriving DecidableEq, Repr

/-- A resolver that behaves as `r` on the world and, on every invocation, appends
to a call log its position `i` and the arguments it was invoked with. -/
def recording {σ : Type} (i : Nat) (r : Resolver σ) : Resolver (σ × List Call) where
  Resolve portName serviceName wl :=
    ((r.Resolve portName serviceName wl.1).1,
      ((r.Resolve portName serviceName wl.1).2, wl.2 ++ [⟨i, portName, serviceName⟩]))

/-- Every entry of a resolver list made `recording`, numbered from `i`. -/
def recordingFrom {σ : Type} : Nat → List (Resolver σ) → List (Resolver (σ × List Call))
  | _, [] => []
  | i, r :: rs => recording i r :: recordingFrom (i + 1) rs

/-- Invoke every resolver of a list once, in order, with the same arguments,
each in the world the previous one left: the results in order and the final world. -/
def invokeEach {σ : Type} (portName serviceName : String) :
    List (Resolver σ) → σ → List Result × σ
  | [], w => ([], w)
  | r :: rs, w =>
      ((r.Resolve portName serviceName w).1 ::
          (invokeEach portName serviceName rs (r.Resolve portName serviceName w).2).1,
        (invokeEach portName serviceName rs (r.Resolve portName serviceName w).2).2)

/-- The log entries of one invocation each of the entries `i, i+1, ..., i+n-1`. -/
def callsFrom (portName serviceName : String) : Nat → Nat → List Call
  | _, 0 => []
  | i, n + 1 => ⟨i, portName, serviceName⟩ :: callsFrom portName serviceName (i + 1) n

/-- The `Error()` texts of the results that carry an error, in order. -/
def errorTexts (results : List Result) : List String :=
  results.filterMap (fun res => res.2.map error.Error)

/-- The text `t` occurs in the text `m`. -/
def hasSubstring (m t : String) : Prop := ∃ a b : String, m = a ++ t ++ b

/-! ## Collaborators of the test suite -/

/-- The mock `failedResolver` of the test suite: always `(nil, "constant error")`. -/
def failedResolver : Resolver Unit :=
  ⟨fun _ _ w => ((none, some (errors.New "constant error")), w)⟩

/-- The mock `successfulResolver` of the test suite: always `http://example.com:12345`. -/
def successfulResolver : Resolver Unit :=
  ⟨fun _ _ w => ((some ⟨"http", "example.com:12345", "", "", ""⟩, none), w)⟩

/-- The mock `topResolver` of the test suite: always `tcp://example.com:12345`. -/
def topResolver : Resolver Unit :=
  ⟨fun _ _ w => ((some ⟨"tcp", "example.com:12345", "", "", ""⟩, none), w)⟩

/-- The map `portSchemeMapping` of the test suite. -/
def portSchemeMapping : List (String × String) :=
  [("api", "http"), ("private-api", "https")]

/-- The mock `mockSrvResolver` of the first DNS test: two records for the expected
query, a lookup error for any other query. -/
def mockSrvResolver : SRVResolver Unit :=
  ⟨fun service proto name w =>
    if service = "port-name" ∧ proto = "tcp" ∧ name = "service-name" then
      (("_port-name._tcp.domain.",
        [⟨"domain.svc.local.", 12308, 0, 100⟩, ⟨"domain.svc.local.", 9999, 0, 100⟩], none), w)
    else
      (("", [], some (errors.New "unexpected call")), w)⟩

/-- The mock `mockSrvResolver` of the second DNS test: no record and no error for
the expected query, a lookup error for any other query. -/
def emptySrvResolver : SRVResolver Unit :=
  ⟨fun service proto name w =>
    if service = "unknown-port" ∧ proto = "tcp" ∧ name = "service-name" then
      (("", [], none), w)
    else
      (("", [], some (errors.New "unexpected call")), w)⟩

/-- A lookup capability that fails with "no such host" and still hands out a record. -/
def failingSrvResolver : SRVResolver Unit :=
  ⟨fun _ _ _ w => (("", [⟨"stale.svc.local.", 80, 0, 0⟩], some (errors.New "no such host")), w)⟩

/-- The process environment of the environment resolver test: the two variables
the test sets, and nothing else. -/
def testEnviron : Unit → String → Option String :=
  fun _ key =>
    if key = "SRV_NAME_SERVICE_HOST" then some "1.2.3.4"
    else if key = "SRV_NAME_SERVICE_PORT_PRT_NAME" then some "12345"
    else none

/-- A composition of all four kinds: a scheme decorator over a fallback resolver
over a DNS resolver and the environment resolver. -/
def composedResolver : Resolver Unit :=
  (NewSchemeDecorator
    (fallbackResolver.toResolver
      ⟨[defaultDNSResolver.toResolver ⟨emptySrvResolver, "tcp"⟩,
        NewEnvResolver.toResolver id testEnviron]⟩)
    portSchemeMapping).toResolver

/-- The mock `shouldNeverCallResolver` of the test suite, on which no call is expected. -/
def shouldNeverCallResolver : Resolver Unit :=
  ⟨fun _ _ w => ((none, some (errors.New "unexpected call")), w)⟩

/-- A process environment in which no variable is set. -/
def emptyEnviron : Unit → String → Option String :=
  fun _ _ => none

/-- A process environment with the host variable of the test set, the port variable
set to the empty text, and nothing else. -/
def hostOnlyEnviron : Unit → String → Option String :=
  fun _ key =>
    if key = "SRV_NAME_SERVICE_HOST" then some "1.2.3.4"
    else if key = "SRV_NAME_SERVICE_PORT_PRT_NAME" then some ""
    else none

/-! ## Lemmas on the fallback loop -/

theorem loop_first_success {σ : Type} (portName serviceName : String)
    (pre : List (Resolver σ)) (r : Resolver σ) (post : List (Resolver σ)) :
    ∀ (i c : Nat) (ignoredErrors : List String) (w : σ) (log : List Call) (u : Option URL),
      c + pre.length < maxCalls →
      (∀ res ∈ (invokeEach portName serviceName pre w).1, res.2 ≠ none) →
      (r.Resolve portName serviceName (invokeEach portName serviceName pre w).2).1 = (u, none) →
      fallbackResolver.loop portName serviceName (recordingFrom i (pre ++ r :: post))
          c ignoredErrors (w, log)
        = ((u, none),
            ((r.Resolve portName serviceName (invokeEach portName serviceName pre w).2).2,
              log ++ callsFrom portName serviceName i (pre.length + 1))) := by
  induction pre with
  | nil =>
    intro i c errs w log u hc _ hr
    simp only [List.nil_append, recordingFrom, fallbackResolver.loop, recording, invokeEach]
      at hr ⊢
    have hc1 : ¬ (c + 1 > maxCalls) := by simp at hc; omega
    rw [if_neg hc1, hr]
    simp [callsFrom]
  | cons a pre ih =>
    intro i c errs w log u hc hfail hr
    simp only [invokeEach, List.mem_cons, forall_eq_or_imp] at hfail hr
    obtain ⟨ha, hrest⟩ := hfail
    simp only [List.cons_append, recordingFrom, fallbackResolver.loop, recording]
    have hc1 : ¬ (c + 1 > maxCalls) := by simp at hc; omega
    rw [if_neg hc1]
    cases hres : (a.Resolve portName serviceName w).1 with
    | mk url err =>
      cases err with
      | none => rw [hres] at ha; exact absurd rfl ha
      | some e =>
        simp only [List.append_eq]
        have hc2 : (c + 1) + pre.length < maxCalls := by simp at hc; omega
        rw [ih (i + 1) (c + 1) _ _ _ u hc2 hrest hr]
        simp [invokeEach, callsFrom, List.append_assoc]

theorem loop_all_failed {σ : Type} (portName serviceName : String) (rs : List (Resolver σ)) :
    ∀ (c : Nat) (ignoredErrors : List String) (w : σ),
      c + rs.length ≤ maxCalls →
      (∀ res ∈ (invokeEach portName serviceName rs w).1, res.2 ≠ none) →
      fallbackResolver.loop portName serviceName rs c ignoredErrors w
        = ((none, some (errors.New
            ("failed to resolve \"" ++ serviceName ++ "\" with the given port \"" ++ portName ++
              "\" URL: all resolvers are failed with errors: \n" ++
              "\n".intercalate
                (ignoredErrors ++ errorTexts (invokeEach portName serviceName rs w).1)))),
            (invokeEach portName serviceName rs w).2) := by
  induction rs with
  | nil =>
    intro c errs w _ _
    simp [fallbackResolver.loop, invokeEach, errorTexts]
  | cons a rs ih =>
    intro c errs w hc hfail
    simp only [invokeEach, List.mem_cons, forall_eq_or_imp] at hfail
    obtain ⟨ha, hrest⟩ := hfail
    simp only [fallbackResolver.loop, invokeEach]
    have hc1 : ¬ (c + 1 > maxCalls) := by simp at hc; omega
    rw [if_neg hc1]
    rcases hres : a.Resolve portName serviceName w with ⟨⟨url, err⟩, w1⟩
    rw [hres] at ha hrest
    cases err with
    | none => exact absurd rfl ha
    | some e =>
      have hc2 : (c + 1) + rs.length ≤ maxCalls := by simp at hc; omega
      simp only []
      rw [ih (c + 1) _ _ hc2 hrest]
      simp [errorTexts, List.filterMap_cons, List.append_assoc]

theorem intercalate_go_start (sep : String) :
    ∀ (l : List String) (acc : String), ∃ b : String, String.intercalate.go acc sep l = acc ++ b := by
  intro l
  induction l with
  | nil => intro acc; exact ⟨"", by simp [String.intercalate.go]⟩
  | cons a l ih =>
    intro acc
    obtain ⟨b, hb⟩ := ih (acc ++ sep ++ a)
    exact ⟨sep ++ a ++ b, by
      rw [String.intercalate.go, hb]; simp only [String.append_assoc]⟩

theorem intercalate_go_mem (sep : String) :
    ∀ (l : List String) (acc e : String), e ∈ l →
      hasSubstring (String.intercalate.go acc sep l) e := by
  intro l
  induction l with
  | nil => intro acc e he; simp at he
  | cons a l ih =>
    intro acc e he
    rcases List.mem_cons.mp he with rfl | hmem
    · obtain ⟨b, hb⟩ := intercalate_go_start sep l (acc ++ sep ++ e)
      exact ⟨acc ++ sep, b, by rw [String.intercalate.go, hb]⟩
    · simpa [String.intercalate.go] using ih (acc ++ sep ++ a) e hmem

theorem intercalate_mem (sep : String) (l : List String) (e : String) (he : e ∈ l) :
    hasSubstring (sep.intercalate l) e := by
  cases l with
  | nil => simp at he
  | cons a l =>
    rcases List.mem_cons.mp he with rfl | hmem
    · obtain ⟨b, hb⟩ := intercalate_go_start sep l e
      exact ⟨"", b, by simp [String.intercalate, hb]⟩
    · simpa [String.intercalate] using intercalate_go_mem sep l a e hmem

theorem hasSubstring_append_left (a m t : String) (h : hasSubstring m t) :
    hasSubstring (a ++ m) t := by
  obtain ⟨x, y, rfl⟩ := h
  exact ⟨a ++ x, y, by simp [String.append_assoc]⟩

theorem loop_urlXorError {σ : Type} (portName serviceName : String)
    (rs : List (Resolver σ))
    (hall : ∀ r ∈ rs, ∀ w : σ, urlXorError (r.Resolve portName serviceName w).1) :
    ∀ (c : Nat) (ignoredErrors : List String) (w : σ),
      urlXorError (fallbackResolver.loop portName serviceName rs c ignoredErrors w).1 := by
  induction rs with
  | nil =>
    intro c errs w
    exact Or.inr ⟨rfl, by simp [fallbackResolver.loop]⟩
  | cons a rs ih =>
    intro c errs w
    have ha := hall a (List.mem_cons_self _ _) w
    have hrs := ih (fun r hr => hall r (List.mem_cons_of_mem _ hr))
    simp only [fallbackResolver.loop]
    split
    · exact Or.inr ⟨rfl, by simp⟩
    · rcases hres : a.Resolve portName serviceName w with ⟨⟨url, err⟩, w1⟩
      rw [hres] at ha
      cases err with
      | some e => exact hrs _ _ _
      | none =>
        rcases ha with ⟨hu, _⟩ | ⟨_, he⟩
        · exact Or.inl ⟨hu, rfl⟩
        · exact absurd rfl he

theorem dns_urlXorError {σ : Type} (d : defaultDNSResolver σ)
    (portName serviceName : String) (w : σ) :
    urlXorError (d.Resolve portName serviceName w).1 := by
  unfold defaultDNSResolver.Resolve
  rcases d.srvResolver.LookupSRV portName d.proto serviceName w with ⟨⟨cname, addrs, err⟩, w1⟩
  cases err with
  | some e => exact Or.inr ⟨rfl, by simp⟩
  | none =>
    cases addrs with
    | nil => exact Or.inr ⟨rfl, by simp⟩
    | cons addr rest => exact Or.inl ⟨by simp, rfl⟩

theorem env_urlXorError {σ : Type} (upperCase : Char → Char)
    (environ : σ → String → Option String) (e : envResolver)
    (portName serviceName : String) (w : σ) :
    urlXorError (e.Resolve upperCase environ portName serviceName w).1 := by
  unfold envResolver.Resolve
  simp only []
  split
  · exact Or.inr ⟨rfl, by simp⟩
  · split
    · exact Or.inr ⟨rfl, by simp⟩
    · exact Or.inl ⟨by simp, rfl⟩

theorem scheme_urlXorError {σ : Type} (s : schemeDecorator σ)
    (portName serviceName : String) (w : σ)
    (h : urlXorError (s.innerResolver.Resolve portName serviceName w).1) :
    urlXorError (s.Resolve portName serviceName w).1 := by
  unfold schemeDecorator.Resolve
  cases s.portNameScheme.lookup portName with
  | none => exact h
  | some scheme =>
    rcases hres : s.innerResolver.Resolve portName serviceName w with ⟨⟨url, err⟩, w1⟩
    rw [hres] at h
    cases url with
    | none => exact h
    | some u =>
      rcases h with ⟨_, he⟩ | ⟨hu, _⟩
      · exact Or.inl ⟨by simp, he⟩
      · exact absurd hu (by simp)

theorem fallback_of_new {σ : Type} (rs : List (Resolver σ)) (f : fallbackResolver σ)
    (hnew : NewFallbackResolver rs = Except.ok f) : f = ⟨rs⟩ := by
  unfold NewFallbackResolver at hnew
  split at hnew
  · cases hnew
  · cases hnew; rfl

theorem replace_go_eq_map (l : List Char) :
    strings.Replace.go '-' ['_'] l = l.map (fun c => if c = '-' then '_' else c) := by
  induction l with
  | nil => rfl
  | cons c l ih =>
    by_cases hc : c = '-'
    · simp [strings.Replace.go, hc, ih]
    · simp [strings.Replace.go, hc, ih]

theorem class_eq_not_name_character (c : Char) :
    envVarNameValidCharactersStr c = !isNameCharacter c := by
  unfold envVarNameValidCharactersStr isNameCharacter
  cases decide ('a'.toNat ≤ c.toNat ∧ c.toNat ≤ 'z'.toNat) <;>
    cases decide ('A'.toNat ≤ c.toNat ∧ c.toNat ≤ 'Z'.toNat) <;> rfl

theorem scan_empty_eq_filter (l : List Char) :
    ∀ inRun : Bool,
      envVarNameValidCharactersRegExp.scan [] inRun l = l.filter isNameCharacter := by
  induction l with
  | nil => intro inRun; rfl
  | cons c l ih =>
    intro inRun
    cases hc : isNameCharacter c with
    | true =>
      simp [envVarNameValidCharactersRegExp.scan, class_eq_not_name_character, hc, ih]
    | false =>
      cases inRun <;>
        simp [envVarNameValidCharactersRegExp.scan, class_eq_not_name_character, hc, ih]

theorem envNormalizeName_eq_normalize (upperCase : Char → Char) (name : String) :
    envNormalizeName upperCase name = normalize upperCase name := by
  unfold envNormalizeName normalize envVarNameValidCharactersRegExp.ReplaceAllString
    strings.ToUpper strings.Replace
  simp only []
  rw [replace_go_eq_map, scan_empty_eq_filter]

theorem loop_guard_recorded {σ : Type} (portName serviceName : String)
    (rs : List (Resolver σ)) :
    ∀ (n i c : Nat) (ignoredErrors : List String) (w : σ) (log : List Call),
      c + n = maxCalls → n < rs.length →
      (∀ res ∈ (invokeEach portName serviceName (rs.take n) w).1, res.2 ≠ none) →
      fallbackResolver.loop portName serviceName (recordingFrom i rs) c ignoredErrors (w, log)
        = ((none, some (errors.New "failed to call Resolve: maximum number of calls exceeded")),
            ((invokeEach portName serviceName (rs.take n) w).2,
              log ++ callsFrom portName serviceName i n)) := by
  induction rs with
  | nil => intro n i c errs w log _ hn _; simp at hn
  | cons a rs ih =>
    intro n i c errs w log hc hn hfail
    cases n with
    | zero =>
      have hc1 : c + 1 > maxCalls := by omega
      simp [recordingFrom, fallbackResolver.loop, hc1, invokeEach, callsFrom]
    | succ m =>
      have hc1 : ¬ (c + 1 > maxCalls) := by omega
      simp only [List.take_succ_cons, invokeEach, List.mem_cons, forall_eq_or_imp] at hfail ⊢
      obtain ⟨ha, hrest⟩ := hfail
      simp only [recordingFrom, fallbackResolver.loop, if_neg hc1, recording]
      rcases hres : a.Resolve portName serviceName w with ⟨⟨url, err⟩, w1⟩
      rw [hres] at ha hrest
      cases err with
      | none => exact absurd rfl ha
      | some e =>
        simp only []
        rw [ih m (i + 1) (c + 1) _ w1 _ (by omega) (by simpa using hn) hrest]
        simp [callsFrom, List.append_assoc]

theorem loop_all_failed_recorded {σ : Type} (portName serviceName : String)
    (rs : List (Resolver σ)) :
    ∀ (i c : Nat) (ignoredErrors : List String) (w : σ) (log : List Call),
      c + rs.length ≤ maxCalls →
      (∀ res ∈ (invokeEach portName serviceName rs w).1, res.2 ≠ none) →
      (fallbackResolver.loop portName serviceName (recordingFrom i rs) c ignoredErrors
          (w, log)).2
        = ((invokeEach portName serviceName rs w).2,
            log ++ callsFrom portName serviceName i rs.length) := by
  induction rs with
  | nil => intro i c errs w log _ _; simp [recordingFrom, fallbackResolver.loop, invokeEach, callsFrom]
  | cons a rs ih =>
    intro i c errs w log hc hfail
    have hc1 : ¬ (c + 1 > maxCalls) := by simp at hc; omega
    simp only [invokeEach, List.mem_cons, forall_eq_or_imp] at hfail ⊢
    obtain ⟨ha, hrest⟩ := hfail
    simp only [recordingFrom, fallbackResolver.loop, if_neg hc1, recording]
    rcases hres : a.Resolve portName serviceName w with ⟨⟨url, err⟩, w1⟩
    rw [hres] at ha hrest
    cases err with
    | none => exact absurd rfl ha
    | some e =>
      simp only []
      rw [ih (i + 1) (c + 1) _ w1 _ (by simp at hc; omega) hrest]
      simp [callsFrom, List.append_assoc]

theorem callsFrom_length (portName serviceName : String) :
    ∀ (n i : Nat), (callsFrom portName serviceName i n).length = n := by
  intro n
  induction n with
  | zero => intro i; rfl
  | succ n ih => intro i; simp [callsFrom, ih]

theorem invokeEach_all_failed (portName serviceName : String) :
    ∀ (l : List (Resolver Unit)), (∀ r ∈ l, r = failedResolver) →
      ∀ res ∈ (invokeEach portName serviceName l ()).1, res.2 ≠ none := by
  intro l
  induction l with
  | nil => intro _ res hres; simp [invokeEach] at hres
  | cons a l ih =>
    intro hl res hres
    have ha : a = failedResolver := hl a (List.mem_cons_self _ _)
    subst ha
    simp only [invokeEach, List.mem_cons] at hres
    rcases hres with rfl | hres
    · simp [failedResolver]
    · exact ih (fun r hr => hl r (List.mem_cons_of_mem _ hr)) res hres

theorem loop_error_url_none {σ : Type} (portName serviceName : String)
    (rs : List (Resolver σ)) :
    ∀ (c : Nat) (ignoredErrors : List String) (w w1 : σ) (u : Option URL) (e : error),
      fallbackResolver.loop portName serviceName rs c ignoredErrors w = ((u, some e), w1) →
      u = none := by
  induction rs with
  | nil =>
    intro c errs w w1 u e h
    simp only [fallbackResolver.loop] at h
    exact ((Prod.mk.inj (Prod.mk.inj h).1).1).symm
  | cons a rs ih =>
    intro c errs w w1 u e h
    simp only [fallbackResolver.loop] at h
    split at h
    · exact ((Prod.mk.inj (Prod.mk.inj h).1).1).symm
    · rcases hres : a.Resolve portName serviceName w with ⟨⟨ua, erra⟩, wa⟩
      rw [hres] at h
      cases erra with
      | none => simp at h
      | some ea => exact ih _ _ _ _ _ _ h

theorem loop_outcome_budget {σ : Type} (portName serviceName : String)
    (ys : List (Resolver σ)) :
    ∀ (c c1 : Nat) (errs errs1 : List String) (w : σ),
      c + ys.length ≤ maxCalls → c1 + ys.length ≤ maxCalls →
      sameOutcome (fallbackResolver.loop portName serviceName ys c errs w)
        (fallbackResolver.loop portName serviceName ys c1 errs1 w) := by
  induction ys with
  | nil =>
    intro c c1 errs errs1 w _ _
    simp [sameOutcome, fallbackResolver.loop]
  | cons a ys ih =>
    intro c c1 errs errs1 w hc hc1
    have h1 : ¬ (c + 1 > maxCalls) := by simp at hc; omega
    have h2 : ¬ (c1 + 1 > maxCalls) := by simp at hc1; omega
    simp only [fallbackResolver.loop, if_neg h1, if_neg h2]
    rcases a.Resolve portName serviceName w with ⟨⟨ua, erra⟩, wa⟩
    cases erra with
    | none => exact ⟨rfl, Iff.rfl, rfl⟩
    | some ea =>
      exact ih _ _ _ _ _ (by simp at hc; omega) (by simp at hc1; omega)

theorem loop_append_success {σ : Type} (portName serviceName : String)
    (xs ys : List (Resolver σ)) :
    ∀ (c c1 : Nat) (errs errs1 : List String) (w w1 : σ) (u : Option URL),
      c + xs.length ≤ maxCalls →
      fallbackResolver.loop portName serviceName xs c1 errs1 w = ((u, none), w1) →
      fallbackResolver.loop portName serviceName (xs ++ ys) c errs w = ((u, none), w1) := by
  induction xs with
  | nil =>
    intro c c1 errs errs1 w w1 u _ h
    simp [fallbackResolver.loop] at h
  | cons a xs ih =>
    intro c c1 errs errs1 w w1 u hc h
    have h1 : ¬ (c + 1 > maxCalls) := by simp at hc; omega
    simp only [fallbackResolver.loop, List.cons_append, if_neg h1] at h ⊢
    split at h
    · simp at h
    · rcases hres : a.Resolve portName serviceName w with ⟨⟨ua, erra⟩, wa⟩
      rw [hres] at h
      cases erra with
      | none => exact h
      | some ea => exact ih _ _ _ _ _ _ _ (by simp at hc; omega) h

theorem loop_append_failure {σ : Type} (portName serviceName : String)
    (xs ys : List (Resolver σ)) :
    ∀ (c c1 : Nat) (errs errs1 : List String) (w w1 : σ) (u : Option URL) (e : error),
      c + xs.length + ys.length ≤ maxCalls → c1 + xs.length ≤ maxCalls →
      fallbackResolver.loop portName serviceName xs c1 errs1 w = ((u, some e), w1) →
      sameOutcome (fallbackResolver.loop portName serviceName (xs ++ ys) c errs w)
        (fallbackResolver.loop portName serviceName ys 0 [] w1) := by
  induction xs with
  | nil =>
    intro c c1 errs errs1 w w1 u e hc _ h
    simp only [fallbackResolver.loop] at h
    have hw : w = w1 := (Prod.mk.inj h).2
    subst hw
    exact loop_outcome_budget portName serviceName ys _ _ _ _ _ (by simpa using hc) (by omega)
  | cons a xs ih =>
    intro c c1 errs errs1 w w1 u e hc hc1 h
    have h1 : ¬ (c + 1 > maxCalls) := by simp at hc; omega
    have h2 : ¬ (c1 + 1 > maxCalls) := by simp at hc1; omega
    simp only [fallbackResolver.loop, List.cons_append, if_neg h1, if_neg h2] at h ⊢
    rcases hres : a.Resolve portName serviceName w with ⟨⟨ua, erra⟩, wa⟩
    rw [hres] at h
    cases erra with
    | none => simp at h
    | some ea =>
      exact ih _ _ _ _ _ _ _ _ (by simp at hc; omega) (by simp at hc1; omega) h

theorem toNat_ofNat_ascii : ∀ n, n < 128 → (Char.ofNat n).toNat = n := by decide

theorem toUpper_not_lower (upperCase : Char → Char)
    (hup : ∀ c : Char, 0x7F < c.toNat →
      ¬ ('a'.toNat ≤ (upperCase c).toNat ∧ (upperCase c).toNat ≤ 'z'.toNat))
    (r : Char) :
    ¬ ('a'.toNat ≤ (unicode.ToUpper upperCase r).toNat ∧
        (unicode.ToUpper upperCase r).toNat ≤ 'z'.toNat) := by
  have ha : 'a'.toNat = 97 := rfl
  have hz : 'z'.toNat = 122 := rfl
  have hA : 'A'.toNat = 65 := rfl
  unfold unicode.ToUpper
  by_cases hascii : r.toNat ≤ 0x7F
  · rw [if_pos hascii]
    by_cases hlow : 'a'.toNat ≤ r.toNat ∧ r.toNat ≤ 'z'.toNat
    · rw [if_pos hlow]
      rw [ha, hz] at hlow
      rw [ha, hz, hA, toNat_ofNat_ascii _ (by omega)]
      omega
    · rw [if_neg hlow]
      exact hlow
  · rw [if_neg hascii]
    exact hup r (by omega)

theorem name_character_not_lower (c : Char) (hname : isNameCharacter c = true)
    (hlow : ¬ ('a'.toNat ≤ c.toNat ∧ c.toNat ≤ 'z'.toNat)) :
    isUpperDigitUnderscore c = true := by
  unfold isNameCharacter at hname
  unfold isUpperDigitUnderscore
  simp only [Bool.or_eq_true, decide_eq_true_eq] at hname ⊢
  rcases hname with ((h | h) | h) | h
  · exact Or.inl (Or.inl h)
  · exact absurd h hlow
  · exact Or.inl (Or.inr h)
  · exact Or.inr h

theorem normalize_upper_only (upperCase : Char → Char)
    (hup : ∀ c : Char, 0x7F < c.toNat →
      ¬ ('a'.toNat ≤ (upperCase c).toNat ∧ (upperCase c).toNat ≤ 'z'.toNat))
    (name : String) :
    ∀ c ∈ (envNormalizeName upperCase name).data, isUpperDigitUnderscore c = true := by
  intro c hc
  rw [envNormalizeName_eq_normalize] at hc
  unfold normalize at hc
  simp only [List.mem_filter, List.mem_map] at hc
  obtain ⟨⟨c0, _, hc0⟩, hname⟩ := hc
  subst hc0
  exact name_character_not_lower _ hname (toUpper_not_lower upperCase hup c0)

theorem env_resolve_same_names {σ : Type} (upperCase : Char → Char)
    (environ : σ → String → Option String) (e : envResolver)
    (portName s1 s2 : String) (w : σ)
    (hhost : envVarServiceName upperCase s1 = envVarServiceName upperCase s2)
    (hport : envVarPortName upperCase portName s1 = envVarPortName upperCase portName s2) :
    (e.Resolve upperCase environ portName s1 w).1.1
        = (e.Resolve upperCase environ portName s2 w).1.1 ∧
      ((e.Resolve upperCase environ portName s1 w).1.2 = none ↔
        (e.Resolve upperCase environ portName s2 w).1.2 = none) := by
  unfold envResolver.Resolve
  rw [hhost, hport]
  simp only []
  split
  · exact ⟨rfl, by simp⟩
  · split
    · exact ⟨rfl, by simp⟩
    · exact ⟨rfl, Iff.rfl⟩

/-! ## Claims -/

/-- C1. First success wins. Let the configured list be `pre ++ r :: post` with fewer
than 128 entries in `pre`, let every entry of `pre`, invoked in order, return an
error, and let `r`, invoked next, return the URL `u` and no error. Then `Resolve`
returns `u` with a nil error, in the world `r` left, and the call log has grown by
exactly one invocation of each of the entries `0 .. pre.length`, in order, each
with the caller's port and service names: every earlier resolver ran once and no
entry of `post` ran at all. -/
theorem fallback_first_success {σ : Type} (pre : List (Resolver σ)) (r : Resolver σ)
    (post : List (Resolver σ)) (portName serviceName : String) (w : σ) (log : List Call)
    (u : Option URL)
    (hpos : pre.length < maxCalls)
    (hfail : ∀ res ∈ (invokeEach portName serviceName pre w).1, res.2 ≠ none)
    (hok : (r.Resolve portName serviceName (invokeEach portName serviceName pre w).2).1
      = (u, none)) :
    fallbackResolver.Resolve ⟨recordingFrom 0 (pre ++ r :: post)⟩ portName serviceName (w, log)
      = ((u, none),
          ((r.Resolve portName serviceName (invokeEach portName serviceName pre w).2).2,
            log ++ callsFrom portName serviceName 0 (pre.length + 1))) := by
  unfold fallbackResolver.Resolve
  exact loop_first_success portName serviceName pre r post 0 0 [] w log u
    (by omega) hfail hok

/-- C1 at the test suite's input: `[failedResolver, successfulResolver,
shouldNeverCallResolver]` resolves to the URL of the second entry, after one call
on entry 0 and one on entry 1, and none on entry 2. -/
theorem fallback_first_success_witness :
    ([failedResolver].length < maxCalls) ∧
    (∀ res ∈ (invokeEach "any" "thing" [failedResolver] ()).1, res.2 ≠ none) ∧
    ((successfulResolver.Resolve "any" "thing"
        (invokeEach "any" "thing" [failedResolver] ()).2).1
      = (some ⟨"http", "example.com:12345", "", "", ""⟩, none)) ∧
    fallbackResolver.Resolve
        ⟨recordingFrom 0 [failedResolver, successfulResolver, shouldNeverCallResolver]⟩
        "any" "thing" ((), [])
      = ((some ⟨"http", "example.com:12345", "", "", ""⟩, none),
          ((), [⟨0, "any", "thing"⟩, ⟨1, "any", "thing"⟩])) :=
  ⟨by decide, by decide, rfl,
    fallback_first_success [failedResolver] successfulResolver [shouldNeverCallResolver]
      "any" "thing" () [] (some ⟨"http", "example.com:12345", "", "", ""⟩)
      (by decide) (by decide) rfl⟩

/-- C2. All resolvers fail. For a fallback resolver constructed from a list of at
most 128 resolvers (and at least one, or construction fails) that all return an
error when invoked in order, `Resolve` returns a nil URL and an error whose message
is exactly the fixed text with the service name and the port name, followed by the
error texts in attempt order joined by a newline, in the world the last resolver
left; the message contains every individual error text, the port name and the
service name. -/
theorem fallback_all_failed {σ : Type} (rs : List (Resolver σ)) (f : fallbackResolver σ)
    (portName serviceName : String) (w : σ)
    (hnew : NewFallbackResolver rs = Except.ok f)
    (hlen : rs.length ≤ maxCalls)
    (hfail : ∀ res ∈ (invokeEach portName serviceName rs w).1, res.2 ≠ none) :
    (f.Resolve portName serviceName w).1.1 = none ∧
    (f.Resolve portName serviceName w).2 = (invokeEach portName serviceName rs w).2 ∧
    ∃ err : error, (f.Resolve portName serviceName w).1.2 = some err ∧
      err.Error =
        "failed to resolve \"" ++ serviceName ++ "\" with the given port \"" ++ portName ++
          "\" URL: all resolvers are failed with errors: \n" ++
          "\n".intercalate (errorTexts (invokeEach portName serviceName rs w).1) ∧
      (∀ e ∈ errorTexts (invokeEach portName serviceName rs w).1, hasSubstring err.Error e) ∧
      hasSubstring err.Error portName ∧ hasSubstring err.Error serviceName := by
  have hf : f = ⟨rs⟩ := fallback_of_new rs f hnew
  subst hf
  have hloop := loop_all_failed portName serviceName rs 0 [] w (by omega) hfail
  simp only [List.nil_append] at hloop
  unfold fallbackResolver.Resolve
  rw [hloop]
  refine ⟨rfl, rfl, _, rfl, rfl, ?_, ?_, ?_⟩
  · intro e he
    exact hasSubstring_append_left _ _ _ (intercalate_mem "\n" _ e he)
  · exact ⟨"failed to resolve \"" ++ serviceName ++ "\" with the given port \"",
      "\" URL: all resolvers are failed with errors: \n" ++
        "\n".intercalate (errorTexts (invokeEach portName serviceName rs w).1),
      by simp [errors.New, error.Error, String.append_assoc]⟩
  · exact ⟨"failed to resolve \"",
      "\" with the given port \"" ++ portName ++
        "\" URL: all resolvers are failed with errors: \n" ++
        "\n".intercalate (errorTexts (invokeEach portName serviceName rs w).1),
      by simp [errors.New, error.Error, String.append_assoc]⟩

/-- C2 at two failing mocks: the message lists both error texts in order. -/
theorem fallback_all_failed_witness :
    (NewFallbackResolver [failedResolver, shouldNeverCallResolver]
      = Except.ok ⟨[failedResolver, shouldNeverCallResolver]⟩) ∧
    ([failedResolver, shouldNeverCallResolver].length ≤ maxCalls) ∧
    (∀ res ∈ (invokeEach "any" "thing" [failedResolver, shouldNeverCallResolver] ()).1,
      res.2 ≠ none) ∧
    ((fallbackResolver.Resolve ⟨[failedResolver, shouldNeverCallResolver]⟩ "any" "thing" ()).1.1
        = none ∧
      (fallbackResolver.Resolve ⟨[failedResolver, shouldNeverCallResolver]⟩ "any" "thing" ()).2
        = () ∧
      ∃ err : error,
        (fallbackResolver.Resolve ⟨[failedResolver, shouldNeverCallResolver]⟩
          "any" "thing" ()).1.2 = some err ∧
        err.Error = "failed to resolve \"thing\" with the given port \"any\" URL: all resolvers are failed with errors: \nconstant error\nunexpected call" ∧
        (∀ e ∈ ["constant error", "unexpected call"], hasSubstring err.Error e) ∧
        hasSubstring err.Error "any" ∧ hasSubstring err.Error "thing") :=
  ⟨rfl, by decide, by decide,
    fallback_all_failed [failedResolver, shouldNeverCallResolver] _ "any" "thing" ()
      rfl (by decide) (by decide)⟩

/-- C3. Mapped port name. If the port name has an entry in the mapping and the inner
resolver returns a non-nil URL, with or without an error, then `Resolve` returns that
URL with only its scheme replaced by the mapped value, whatever the scheme was before
(the host and every other field are unchanged), the inner error as it is, in the
world the inner resolver left. -/
theorem scheme_decorator_mapped {σ : Type} (s : schemeDecorator σ)
    (portName serviceName : String) (w w1 : σ) (scheme : String) (serviceUrl : URL)
    (err : Option error)
    (hkey : s.portNameScheme.lookup portName = some scheme)
    (hinner : s.innerResolver.Resolve portName serviceName w = ((some serviceUrl, err), w1)) :
    s.Resolve portName serviceName w
      = ((some { Scheme := scheme, Host := serviceUrl.Host, Path := serviceUrl.Path,
                 RawQuery := serviceUrl.RawQuery, Fragment := serviceUrl.Fragment }, err), w1) := by
  unfold schemeDecorator.Resolve
  rw [hkey]
  simp only []
  rw [hinner]

/-- C3 at the test suite's input: over `tcp://example.com:12345`, "api" gives
`http://example.com:12345` and "private-api" gives `https://example.com:12345`. -/
theorem scheme_decorator_mapped_witness :
    ((portSchemeMapping.lookup "api" = some "http") ∧
      (topResolver.Resolve "api" "service" ()
        = ((some ⟨"tcp", "example.com:12345", "", "", ""⟩, none), ())) ∧
      (NewSchemeDecorator topResolver portSchemeMapping).Resolve "api" "service" ()
        = ((some ⟨"http", "example.com:12345", "", "", ""⟩, none), ())) ∧
    ((portSchemeMapping.lookup "private-api" = some "https") ∧
      (topResolver.Resolve "private-api" "service" ()
        = ((some ⟨"tcp", "example.com:12345", "", "", ""⟩, none), ())) ∧
      (NewSchemeDecorator topResolver portSchemeMapping).Resolve "private-api" "service" ()
        = ((some ⟨"https", "example.com:12345", "", "", ""⟩, none), ())) :=
  ⟨⟨by decide, rfl,
      scheme_decorator_mapped (NewSchemeDecorator topResolver portSchemeMapping)
        "api" "service" () () "http" ⟨"tcp", "example.com:12345", "", "", ""⟩ none
        (by decide) rfl⟩,
    ⟨by decide, rfl,
      scheme_decorator_mapped (NewSchemeDecorator topResolver portSchemeMapping)
        "private-api" "service" () () "https" ⟨"tcp", "example.com:12345", "", "", ""⟩ none
        (by decide) rfl⟩⟩

theorem lookup_none_of_not_key (portName : String) :
    ∀ m : List (String × String), (∀ kv ∈ m, kv.1 ≠ portName) → m.lookup portName = none := by
  intro m
  induction m with
  | nil => intro _; rfl
  | cons kv m ih =>
    intro h
    obtain ⟨k, v⟩ := kv
    have hk : k ≠ portName := h (k, v) (List.mem_cons_self _ _)
    have hb : (portName == k) = false := by
      simp only [beq_eq_false_iff_ne, ne_eq]
      exact fun e => hk e.symm
    rw [List.lookup_cons, hb]
    exact ih (fun kv hkv => h kv (List.mem_cons_of_mem _ hkv))

/-- C4. Port name not mapped. If no key of the mapping is equal to the port name
(equality of strings: exact and case-sensitive), `Resolve` returns exactly what the
inner resolver returns for the same port and service names: the same URL, the same
error and the same world. -/
theorem scheme_decorator_not_mapped {σ : Type} (s : schemeDecorator σ)
    (portName serviceName : String) (w : σ)
    (hkey : ∀ kv ∈ s.portNameScheme, kv.1 ≠ portName) :
    s.Resolve portName serviceName w = s.innerResolver.Resolve portName serviceName w := by
  unfold schemeDecorator.Resolve
  rw [lookup_none_of_not_key portName s.portNameScheme hkey]

/-- C4 at the test suite's input: "not-mapped" over `tcp://example.com:12345` stays
`tcp://example.com:12345`. -/
theorem scheme_decorator_not_mapped_witness :
    (∀ kv ∈ portSchemeMapping, kv.1 ≠ "not-mapped") ∧
    (NewSchemeDecorator topResolver portSchemeMapping).Resolve "not-mapped" "service" ()
      = ((some ⟨"tcp", "example.com:12345", "", "", ""⟩, none), ()) :=
  ⟨by decide,
    scheme_decorator_not_mapped (NewSchemeDecorator topResolver portSchemeMapping)
      "not-mapped" "service" () (by decide)⟩

/-- C5. The decorator leaves the error alone and makes no URL. For every decorator,
port name, service name and world, the error `Resolve` returns is the error the inner
resolver returned, the URL it returns is nil exactly when the inner URL is nil, and
the world is the one the inner resolver left. -/
theorem scheme_decorator_error_unchanged {σ : Type} (s : schemeDecorator σ)
    (portName serviceName : String) (w : σ) :
    (s.Resolve portName serviceName w).1.2
        = (s.innerResolver.Resolve portName serviceName w).1.2 ∧
      ((s.Resolve portName serviceName w).1.1 = none ↔
        (s.innerResolver.Resolve portName serviceName w).1.1 = none) ∧
      (s.Resolve portName serviceName w).2
        = (s.innerResolver.Resolve portName serviceName w).2 := by
  unfold schemeDecorator.Resolve
  cases s.portNameScheme.lookup portName with
  | none => exact ⟨rfl, Iff.rfl, rfl⟩
  | some scheme =>
    rcases s.innerResolver.Resolve portName serviceName w with ⟨⟨url, err⟩, w1⟩
    cases url with
    | none => exact ⟨rfl, Iff.rfl, rfl⟩
    | some u => exact ⟨rfl, by simp, rfl⟩

/-- C6. A URL or an error, never both and never neither. Every resolver obtained
from `NewDNSResolver`, `NewEnvResolver`, `NewFallbackResolver` and
`NewSchemeDecorator` (the last two over resolvers obtained the same way, to any
depth), for every lookup capability, environment, port name, service name and world,
returns either a non-nil URL with a nil error or a nil URL with a non-nil error. -/
theorem built_resolver_url_xor_error {σ : Type} (upperCase : Char → Char)
    (environ : σ → String → Option String) (r : Resolver σ)
    (hbuilt : Built upperCase environ r) (portName serviceName : String) (w : σ) :
    urlXorError (r.Resolve portName serviceName w).1 := by
  induction hbuilt generalizing w with
  | dns srvResolver proto d _ => exact dns_urlXorError d portName serviceName w
  | env => exact env_urlXorError upperCase environ NewEnvResolver portName serviceName w
  | fallback resolvers f _ hnew ih =>
    have hf : f = ⟨resolvers⟩ := fallback_of_new resolvers f hnew
    subst hf
    exact loop_urlXorError portName serviceName resolvers (fun r hr w => ih r hr w) 0 [] w
  | scheme innerResolver portNameScheme _ ih =>
    exact scheme_urlXorError (NewSchemeDecorator innerResolver portNameScheme)
      portName serviceName w (ih w)

/-- C6 at a scheme decorator over a fallback resolver over a DNS resolver and the
environment resolver. -/
theorem built_resolver_url_xor_error_witness :
    Built id testEnviron composedResolver ∧
    urlXorError (composedResolver.Resolve "prt_name" "srv-name" ()).1 :=
  have hbuilt : Built id testEnviron composedResolver :=
    Built.scheme _ portSchemeMapping
      (Built.fallback
        [defaultDNSResolver.toResolver ⟨emptySrvResolver, "tcp"⟩,
          NewEnvResolver.toResolver id testEnviron]
        _
        (fun r hr => by
          rcases List.mem_cons.mp hr with rfl | hr
          · exact Built.dns emptySrvResolver "tcp" _ rfl
          · rcases List.mem_cons.mp hr with rfl | hr
            · exact Built.env
            · simp at hr)
        rfl)
  ⟨hbuilt,
    built_resolver_url_xor_error id testEnviron composedResolver hbuilt
      "prt_name" "srv-name" ()⟩

/-- C7. First address wins. If the lookup capability, called with the port name as
service, the configured proto and the service name as name, returns no error and a
list whose first record is `addr`, then `Resolve` returns a nil error and the URL
with scheme `proto` and host `addr.Target`, a colon and `addr.Port` in decimal, in
the world the lookup left; the records after the first do not occur in the result. -/
theorem dns_first_address {σ : Type} (d : defaultDNSResolver σ)
    (portName serviceName : String) (w w1 : σ) (cname : String) (addr : SRV)
    (rest : List SRV)
    (hlookup : d.srvResolver.LookupSRV portName d.proto serviceName w
      = ((cname, addr :: rest, none), w1)) :
    d.Resolve portName serviceName w
      = ((some { Scheme := d.proto, Host := addr.Target ++ ":" ++ toString addr.Port,
                 Path := "", RawQuery := "", Fragment := "" }, none), w1) := by
  unfold defaultDNSResolver.Resolve
  rw [hlookup]

/-- C7 at the test suite's input: records `domain.svc.local.` with ports 12308 then
9999 and proto `tcp` give `tcp://domain.svc.local.:12308`. -/
theorem dns_first_address_witness :
    (mockSrvResolver.LookupSRV "port-name" "tcp" "service-name" ()
      = (("_port-name._tcp.domain.",
          ⟨"domain.svc.local.", 12308, 0, 100⟩ :: [⟨"domain.svc.local.", 9999, 0, 100⟩],
          none), ())) ∧
    defaultDNSResolver.Resolve ⟨mockSrvResolver, "tcp"⟩ "port-name" "service-name" ()
      = ((some ⟨"tcp", "domain.svc.local.:12308", "", "", ""⟩, none), ()) :=
  ⟨by decide,
    dns_first_address ⟨mockSrvResolver, "tcp"⟩ "port-name" "service-name" () ()
      "_port-name._tcp.domain." ⟨"domain.svc.local.", 12308, 0, 100⟩
      [⟨"domain.svc.local.", 9999, 0, 100⟩] (by decide)⟩

/-- C8. No record. If the lookup capability returns no error and an empty list,
`Resolve` returns a nil URL and the error "record is not found", in the world the
lookup left. -/
theorem dns_no_record {σ : Type} (d : defaultDNSResolver σ)
    (portName serviceName : String) (w w1 : σ) (cname : String)
    (hlookup : d.srvResolver.LookupSRV portName d.proto serviceName w
      = ((cname, [], none), w1)) :
    d.Resolve portName serviceName w
        = ((none, some (errors.New "record is not found")), w1) ∧
      (errors.New "record is not found").Error = "record is not found" := by
  refine ⟨?_, rfl⟩
  unfold defaultDNSResolver.Resolve
  rw [hlookup]

/-- C8 at the test suite's input: an empty answer for "unknown-port". -/
theorem dns_no_record_witness :
    (emptySrvResolver.LookupSRV "unknown-port" "tcp" "service-name" ()
      = (("", [], none), ())) ∧
    (defaultDNSResolver.Resolve ⟨emptySrvResolver, "tcp"⟩ "unknown-port" "service-name" ()
        = ((none, some (errors.New "record is not found")), ()) ∧
      (errors.New "record is not found").Error = "record is not found") :=
  ⟨by decide,
    dns_no_record ⟨emptySrvResolver, "tcp"⟩ "unknown-port" "service-name" () () ""
      (by decide)⟩

/-- C9. Lookup error. If the lookup capability returns an error `e`, then whatever
list comes with it `Resolve` returns a nil URL and the error `errors.Wrap` makes of
`e`, in the world the lookup left. That error wraps `e`: below its stack layer is
the message layer, whose cause is `e`, so two steps of `Unwrap` reach `e` and
`errors.Cause` finds the same root as for `e`. Its message is
"failed to lookup SRV DNS record: " followed by the message of `e`. -/
theorem dns_lookup_failed {σ : Type} (d : defaultDNSResolver σ)
    (portName serviceName : String) (w w1 : σ) (cname : String) (addrs : List SRV)
    (e : error)
    (hlookup : d.srvResolver.LookupSRV portName d.proto serviceName w
      = ((cname, addrs, some e), w1)) :
    ∃ err : error,
      d.Resolve portName serviceName w = ((none, some err), w1) ∧
      err = errors.Wrap e "failed to lookup SRV DNS record" ∧
      err.Unwrap = some (error.withMessage e "failed to lookup SRV DNS record") ∧
      err.Unwrap.bind error.Unwrap = some e ∧
      errors.Cause err = errors.Cause e ∧
      err.Error = "failed to lookup SRV DNS record: " ++ e.Error := by
  refine ⟨errors.Wrap e "failed to lookup SRV DNS record", ?_, rfl, rfl, rfl, rfl, ?_⟩
  · unfold defaultDNSResolver.Resolve
    rw [hlookup]
  · simp [errors.Wrap, error.Error, String.append_assoc]

/-- C9 at a lookup that fails with "no such host" and returns a record all the same. -/
theorem dns_lookup_failed_witness :
    (failingSrvResolver.LookupSRV "api" "udp" "wallet" ()
      = (("", [⟨"stale.svc.local.", 80, 0, 0⟩], some (errors.New "no such host")), ())) ∧
    ∃ err : error,
      defaultDNSResolver.Resolve ⟨failingSrvResolver, "udp"⟩ "api" "wallet" ()
        = ((none, some err), ()) ∧
      err = errors.Wrap (errors.New "no such host") "failed to lookup SRV DNS record" ∧
      err.Unwrap = some (error.withMessage (errors.New "no such host")
        "failed to lookup SRV DNS record") ∧
      err.Unwrap.bind error.Unwrap = some (errors.New "no such host") ∧
      errors.Cause err = errors.New "no such host" ∧
      err.Error = "failed to lookup SRV DNS record: no such host" :=
  ⟨rfl,
    dns_lookup_failed ⟨failingSrvResolver, "udp"⟩ "api" "wallet" () () ""
      [⟨"stale.svc.local.", 80, 0, 0⟩] (errors.New "no such host") rfl⟩

/-- C11. Both variables set. In every world in which the derived host variable has
a non-empty value `h` and the derived port variable has a non-empty value `q`, the
environment resolver returns a nil error and the URL with host `h`, a colon and `q`
and with the empty scheme, and leaves the world as it is. -/
theorem env_both_set {σ : Type} (upperCase : Char → Char)
    (environ : σ → String → Option String) (e : envResolver)
    (portName serviceName : String) (w : σ) (h q : String)
    (hhost : environ w (envVarServiceName upperCase serviceName) = some h)
    (hh : h ≠ "")
    (hport : environ w (envVarPortName upperCase portName serviceName) = some q)
    (hq : q ≠ "") :
    e.Resolve upperCase environ portName serviceName w
      = ((some { Scheme := "", Host := h ++ ":" ++ q,
                 Path := "", RawQuery := "", Fragment := "" }, none), w) := by
  unfold envResolver.Resolve os.Getenv
  rw [hhost, hport]
  simp [hh, hq]

/-- C11 at the test suite's input: host "1.2.3.4" and port "12345" give the host
"1.2.3.4:12345" and the empty scheme. -/
theorem env_both_set_witness :
    (testEnviron () (envVarServiceName id "srv-name") = some "1.2.3.4") ∧
    ("1.2.3.4" ≠ "") ∧
    (testEnviron () (envVarPortName id "prt_name" "srv-name") = some "12345") ∧
    ("12345" ≠ "") ∧
    NewEnvResolver.Resolve id testEnviron "prt_name" "srv-name" ()
      = ((some ⟨"", "1.2.3.4:12345", "", "", ""⟩, none), ()) :=
  ⟨by decide, by decide, by decide, by decide,
    env_both_set id testEnviron NewEnvResolver "prt_name" "srv-name" () "1.2.3.4" "12345"
      (by decide) (by decide) (by decide) (by decide)⟩

/-- C12. Host not configured. In every world in which the derived host variable is
unset or empty, whatever the port variable holds, the environment resolver returns a
nil URL and an error whose message is `failed to find service(`, the service name as
given, `) host: "`, the host variable name looked up, and
`" environment variable is not set`; the world is left as it is. -/
theorem env_host_not_configured {σ : Type} (upperCase : Char → Char)
    (environ : σ → String → Option String) (e : envResolver)
    (portName serviceName : String) (w : σ)
    (hhost : environ w (envVarServiceName upperCase serviceName) = none ∨
      environ w (envVarServiceName upperCase serviceName) = some "") :
    ∃ err : error,
      e.Resolve upperCase environ portName serviceName w = ((none, some err), w) ∧
      err.Error = "failed to find service(" ++ serviceName ++ ") host: \"" ++
        envVarServiceName upperCase serviceName ++ "\" environment variable is not set" := by
  refine ⟨errors.New ("failed to find service(" ++ serviceName ++ ") host: \"" ++
    envVarServiceName upperCase serviceName ++ "\" environment variable is not set"),
    ?_, rfl⟩
  unfold envResolver.Resolve os.Getenv
  rcases hhost with h | h <;> rw [h] <;> simp

/-- C12 at the test's names in an environment without any variable. -/
theorem env_host_not_configured_witness :
    (emptyEnviron () (envVarServiceName id "srv-name") = none ∨
      emptyEnviron () (envVarServiceName id "srv-name") = some "") ∧
    ∃ err : error,
      NewEnvResolver.Resolve id emptyEnviron "prt_name" "srv-name" ()
        = ((none, some err), ()) ∧
      err.Error = "failed to find service(srv-name) host: \"SRV_NAME_SERVICE_HOST\" environment variable is not set" :=
  ⟨Or.inl rfl,
    env_host_not_configured id emptyEnviron NewEnvResolver "prt_name" "srv-name" ()
      (Or.inl rfl)⟩

/-- C13. Port not configured. In every world in which the derived host variable is
non-empty and the derived port variable is unset or empty, the environment resolver
returns a nil URL and an error whose message is `failed to find service(`, the
service name as given, `) port(`, the port name as given, `): "`, the port variable
name looked up, and `" environment variable is not set`; the world is left as it
is. -/
theorem env_port_not_configured {σ : Type} (upperCase : Char → Char)
    (environ : σ → String → Option String) (e : envResolver)
    (portName serviceName : String) (w : σ) (h : String)
    (hhost : environ w (envVarServiceName upperCase serviceName) = some h)
    (hh : h ≠ "")
    (hport : environ w (envVarPortName upperCase portName serviceName) = none ∨
      environ w (envVarPortName upperCase portName serviceName) = some "") :
    ∃ err : error,
      e.Resolve upperCase environ portName serviceName w = ((none, some err), w) ∧
      err.Error = "failed to find service(" ++ serviceName ++ ") port(" ++ portName ++
        "): \"" ++ envVarPortName upperCase portName serviceName ++
        "\" environment variable is not set" := by
  refine ⟨errors.New ("failed to find service(" ++ serviceName ++ ") port(" ++ portName ++
    "): \"" ++ envVarPortName upperCase portName serviceName ++
    "\" environment variable is not set"), ?_, rfl⟩
  unfold envResolver.Resolve os.Getenv
  rw [hhost]
  rcases hport with hp | hp <;> rw [hp] <;> simp [hh]

/-- C13 at the test's names in an environment where only the host variable has a
value. -/
theorem env_port_not_configured_witness :
    (hostOnlyEnviron () (envVarServiceName id "srv-name") = some "1.2.3.4") ∧
    ("1.2.3.4" ≠ "") ∧
    (hostOnlyEnviron () (envVarPortName id "prt_name" "srv-name") = none ∨
      hostOnlyEnviron () (envVarPortName id "prt_name" "srv-name") = some "") ∧
    ∃ err : error,
      NewEnvResolver.Resolve id hostOnlyEnviron "prt_name" "srv-name" ()
        = ((none, some err), ()) ∧
      err.Error = "failed to find service(srv-name) port(prt_name): \"SRV_NAME_SERVICE_PORT_PRT_NAME\" environment variable is not set" :=
  ⟨by decide, by decide, Or.inr (by decide),
    env_port_not_configured id hostOnlyEnviron NewEnvResolver "prt_name" "srv-name" ()
      "1.2.3.4" (by decide) (by decide) (Or.inr (by decide))⟩

/-- C14. The proto is checked at construction. `NewDNSResolver` panics exactly when
proto is neither "tcp" nor "udp", so "TCP", the empty text and "http" are rejected;
for "tcp" and for "udp" it returns the resolver holding the lookup capability given
and that proto. -/
theorem new_dns_resolver_proto {σ : Type} (srvResolver : SRVResolver σ) (proto : String) :
    ((∃ msg : String, NewDNSResolver srvResolver proto = Except.error msg) ↔
      (proto ≠ "tcp" ∧ proto ≠ "udp")) ∧
    ((∃ d : defaultDNSResolver σ, NewDNSResolver srvResolver proto = Except.ok d) ↔
      (proto = "tcp" ∨ proto = "udp")) ∧
    NewDNSResolver srvResolver "tcp"
      = Except.ok { srvResolver := srvResolver, proto := "tcp" } ∧
    NewDNSResolver srvResolver "udp"
      = Except.ok { srvResolver := srvResolver, proto := "udp" } ∧
    (∃ msg : String, NewDNSResolver srvResolver "TCP" = Except.error msg) ∧
    (∃ msg : String, NewDNSResolver srvResolver "" = Except.error msg) ∧
    (∃ msg : String, NewDNSResolver srvResolver "http" = Except.error msg) := by
  refine ⟨?_, ?_, rfl, rfl, ⟨_, rfl⟩, ⟨_, rfl⟩, ⟨_, rfl⟩⟩
  · unfold NewDNSResolver
    by_cases h : proto ≠ "tcp" ∧ proto ≠ "udp"
    · rw [if_pos h]
      exact ⟨fun _ => h, fun _ => ⟨_, rfl⟩⟩
    · rw [if_neg h]
      exact ⟨fun ⟨_, hm⟩ => (by cases hm), fun h1 => absurd h1 h⟩
  · unfold NewDNSResolver
    by_cases h : proto ≠ "tcp" ∧ proto ≠ "udp"
    · rw [if_pos h]
      constructor
      · rintro ⟨d, hd⟩
        cases hd
      · rintro (h1 | h1)
        · exact absurd h1 h.1
        · exact absurd h1 h.2
    · rw [if_neg h]
      constructor
      · intro _
        by_cases ht : proto = "tcp"
        · exact Or.inl ht
        · by_cases hu : proto = "udp"
          · exact Or.inr hu
          · exact absurd ⟨ht, hu⟩ h
      · intro _
        exact ⟨_, rfl⟩

/-- C15. The list is checked at construction. `NewFallbackResolver` panics exactly
when it is given no resolver; given a non-empty list it returns the resolver whose
`resolvers` is that list, in the order given. -/
theorem new_fallback_resolver_nonempty {σ : Type} (resolvers : List (Resolver σ))
    (r : Resolver σ) (rest : List (Resolver σ)) :
    ((∃ msg : String, NewFallbackResolver resolvers = Except.error msg) ↔ resolvers = []) ∧
    ((∃ f : fallbackResolver σ, NewFallbackResolver resolvers = Except.ok f) ↔
      resolvers ≠ []) ∧
    NewFallbackResolver (r :: rest) = Except.ok { resolvers := r :: rest } ∧
    (∃ msg : String, NewFallbackResolver ([] : List (Resolver σ)) = Except.error msg) := by
  refine ⟨?_, ?_, rfl, ⟨_, rfl⟩⟩
  · cases resolvers with
    | nil => exact ⟨fun _ => rfl, fun _ => ⟨_, rfl⟩⟩
    | cons a l =>
      constructor
      · rintro ⟨msg, hm⟩
        simp [NewFallbackResolver] at hm
      · intro h
        cases h
  · cases resolvers with
    | nil =>
      constructor
      · rintro ⟨f, hf⟩
        simp [NewFallbackResolver] at hf
      · intro h
        exact absurd rfl h
    | cons a l => exact ⟨fun _ => by simp, fun _ => ⟨_, rfl⟩⟩

/-- C17, as the code has it. For every fallback resolver with at most 128 configured
entries and every `Resolve` call in which every configured inner resolver, invoked in
order, returns an error, the call log grows by exactly one invocation of each
configured entry, in construction order, with the caller's port and service names,
and the world is the one left by invoking each entry once in order. -/
theorem fallback_each_entry_once {σ : Type} (rs : List (Resolver σ))
    (portName serviceName : String) (w : σ) (log : List Call)
    (hlen : rs.length ≤ maxCalls)
    (hfail : ∀ res ∈ (invokeEach portName serviceName rs w).1, res.2 ≠ none) :
    (fallbackResolver.Resolve ⟨recordingFrom 0 rs⟩ portName serviceName (w, log)).2
      = ((invokeEach portName serviceName rs w).2,
          log ++ callsFrom portName serviceName 0 rs.length) := by
  unfold fallbackResolver.Resolve
  exact loop_all_failed_recorded portName serviceName rs 0 0 [] w log (by omega) hfail

/-- C17 at two failing mocks: one call on entry 0, then one on entry 1. -/
theorem fallback_each_entry_once_witness :
    ([failedResolver, shouldNeverCallResolver].length ≤ maxCalls) ∧
    (∀ res ∈ (invokeEach "any" "thing" [failedResolver, shouldNeverCallResolver] ()).1,
      res.2 ≠ none) ∧
    (fallbackResolver.Resolve ⟨recordingFrom 0 [failedResolver, shouldNeverCallResolver]⟩
        "any" "thing" ((), [])).2
      = ((), [⟨0, "any", "thing"⟩, ⟨1, "any", "thing"⟩]) :=
  ⟨by decide, by decide,
    fallback_each_entry_once [failedResolver, shouldNeverCallResolver] "any" "thing" () []
      (by decide) (by decide)⟩

/-- C17 as stated fails beyond the bound. With 129 configured resolvers that all
return an error, the call log after `Resolve` holds the invocations of the entries
`0 .. 127` only: the 129th entry is skipped, so the log is not one invocation of
each of the 129 configured entries. -/
theorem fallback_each_entry_once_beyond_bound :
    (∀ res ∈ (invokeEach "any" "thing" (List.replicate 129 failedResolver) ()).1,
      res.2 ≠ none) ∧
    (fallbackResolver.Resolve ⟨recordingFrom 0 (List.replicate 129 failedResolver)⟩
        "any" "thing" ((), [])).2.2 = callsFrom "any" "thing" 0 128 ∧
    (fallbackResolver.Resolve ⟨recordingFrom 0 (List.replicate 129 failedResolver)⟩
        "any" "thing" ((), [])).2.2
      ≠ callsFrom "any" "thing" 0 (List.replicate 129 failedResolver).length := by
  have hall : ∀ res ∈ (invokeEach "any" "thing" (List.replicate 129 failedResolver) ()).1,
      res.2 ≠ none :=
    invokeEach_all_failed "any" "thing" _ (fun r hr => List.eq_of_mem_replicate hr)
  have htake : ∀ res ∈ (invokeEach "any" "thing"
      ((List.replicate 129 failedResolver).take 128) ()).1, res.2 ≠ none :=
    invokeEach_all_failed "any" "thing" _
      (fun r hr => List.eq_of_mem_replicate (List.mem_of_mem_take hr))
  have hrun := loop_guard_recorded "any" "thing" (List.replicate 129 failedResolver)
    128 0 0 [] () [] (by decide) (by simp) htake
  have hlog : (fallbackResolver.Resolve ⟨recordingFrom 0 (List.replicate 129 failedResolver)⟩
      "any" "thing" ((), [])).2.2 = callsFrom "any" "thing" 0 128 := by
    unfold fallbackResolver.Resolve
    rw [hrun]
    simp
  refine ⟨hall, hlog, ?_⟩
  rw [hlog]
  intro h
  have hl := congrArg List.length h
  simp [callsFrom_length] at hl

/-- C18. Nesting does not change what is resolved. For non-empty resolver lists `xs`
and `ys` with `xs.length + ys.length ≤ 128`, the fallback resolver over the fallback
resolver of `xs` and the fallback resolver of `ys` and the fallback resolver over
`xs ++ ys` return, for every port name, service name and world, the same URL, an
error in the same cases, and the same world; only the text of the error may differ. -/
theorem fallback_nesting {σ : Type} (xs ys : List (Resolver σ))
    (fx fy fn ff : fallbackResolver σ) (portName serviceName : String) (w : σ)
    (hx : NewFallbackResolver xs = Except.ok fx)
    (hy : NewFallbackResolver ys = Except.ok fy)
    (hn : NewFallbackResolver [fx.toResolver, fy.toResolver] = Except.ok fn)
    (hf : NewFallbackResolver (xs ++ ys) = Except.ok ff)
    (hlen : xs.length + ys.length ≤ maxCalls) :
    ((fn.Resolve portName serviceName w).1.2 ≠ none ↔
      (ff.Resolve portName serviceName w).1.2 ≠ none) ∧
    (fn.Resolve portName serviceName w).1.1 = (ff.Resolve portName serviceName w).1.1 ∧
    (fn.Resolve portName serviceName w).2 = (ff.Resolve portName serviceName w).2 := by
  have e1 := fallback_of_new _ _ hx
  have e2 := fallback_of_new _ _ hy
  have e3 := fallback_of_new _ _ hn
  have e4 := fallback_of_new _ _ hf
  subst e1 e2 e3 e4
  have hg1 : ¬ (0 + 1 > maxCalls) := by decide
  have hg2 : ¬ (0 + 1 + 1 > maxCalls) := by decide
  simp only [fallbackResolver.Resolve, fallbackResolver.loop, fallbackResolver.toResolver,
    if_neg hg1, if_neg hg2]
  rcases hxs : fallbackResolver.loop portName serviceName xs 0 [] w with ⟨⟨u, e⟩, w1⟩
  cases e with
  | none =>
    rw [loop_append_success portName serviceName xs ys 0 0 [] [] w w1 u (by omega) hxs]
    exact ⟨Iff.rfl, rfl, rfl⟩
  | some ex =>
    have hsame := loop_append_failure portName serviceName xs ys 0 0 [] [] w w1 u ex
      (by omega) (by omega) hxs
    obtain ⟨hu, he, hw⟩ := hsame
    simp only []
    rcases hys : fallbackResolver.loop portName serviceName ys 0 [] w1 with ⟨⟨u2, e2⟩, w2⟩
    rw [hys] at hu he hw
    cases e2 with
    | none =>
      have hflat : (fallbackResolver.loop portName serviceName (xs ++ ys) 0 [] w).1.2 = none :=
        he.mpr rfl
      refine ⟨?_, hu.symm, hw.symm⟩
      rw [hflat]
    | some ey =>
      have hnone : u2 = none := loop_error_url_none portName serviceName ys 0 [] w1 w2 u2 ey hys
      subst hnone
      have hflat : (fallbackResolver.loop portName serviceName (xs ++ ys) 0 [] w).1.2 ≠ none :=
        fun h => Option.noConfusion (he.mp h)
      refine ⟨⟨fun _ => hflat, fun _ => ?_⟩, hu.symm, hw.symm⟩
      simp

/-- C18 at `xs = [failedResolver]` and `ys = [successfulResolver]`: nested and flat
both resolve to the URL of `successfulResolver`. -/
theorem fallback_nesting_witness :
    (NewFallbackResolver [failedResolver] = Except.ok ⟨[failedResolver]⟩) ∧
    (NewFallbackResolver [successfulResolver] = Except.ok ⟨[successfulResolver]⟩) ∧
    (NewFallbackResolver
        [fallbackResolver.toResolver ⟨[failedResolver]⟩,
          fallbackResolver.toResolver ⟨[successfulResolver]⟩]
      = Except.ok ⟨[fallbackResolver.toResolver ⟨[failedResolver]⟩,
          fallbackResolver.toResolver ⟨[successfulResolver]⟩]⟩) ∧
    (NewFallbackResolver ([failedResolver] ++ [successfulResolver])
      = Except.ok ⟨[failedResolver, successfulResolver]⟩) ∧
    ([failedResolver].length + [successfulResolver].length ≤ maxCalls) ∧
    (((fallbackResolver.Resolve
          ⟨[fallbackResolver.toResolver ⟨[failedResolver]⟩,
            fallbackResolver.toResolver ⟨[successfulResolver]⟩]⟩ "any" "thing" ()).1.2 ≠ none ↔
        (fallbackResolver.Resolve ⟨[failedResolver, successfulResolver]⟩
          "any" "thing" ()).1.2 ≠ none) ∧
      (fallbackResolver.Resolve
          ⟨[fallbackResolver.toResolver ⟨[failedResolver]⟩,
            fallbackResolver.toResolver ⟨[successfulResolver]⟩]⟩ "any" "thing" ()).1.1
        = (fallbackResolver.Resolve ⟨[failedResolver, successfulResolver]⟩
          "any" "thing" ()).1.1 ∧
      (fallbackResolver.Resolve
          ⟨[fallbackResolver.toResolver ⟨[failedResolver]⟩,
            fallbackResolver.toResolver ⟨[successfulResolver]⟩]⟩ "any" "thing" ()).2
        = (fallbackResolver.Resolve ⟨[failedResolver, successfulResolver]⟩
          "any" "thing" ()).2) :=
  ⟨rfl, rfl, rfl, rfl, by decide,
    fallback_nesting [failedResolver] [successfulResolver] _ _ _ _ "any" "thing" ()
      rfl rfl rfl rfl (by decide)⟩

/-- C19. Only upper-case letters, digits and underscores. If the Unicode case table
maps no rune above ASCII to an ASCII lower-case letter (as the Unicode tables do),
then for every input text every character of `envNormalizeName` is in the class
`[A-Z0-9_]`, and so is every character of the host variable name and of the port
variable name the environment resolver derives. -/
theorem env_names_upper_only (upperCase : Char → Char)
    (hup : ∀ c : Char, 0x7F < c.toNat →
      ¬ ('a'.toNat ≤ (upperCase c).toNat ∧ (upperCase c).toNat ≤ 'z'.toNat))
    (name portName serviceName : String) :
    (∀ c ∈ (envNormalizeName upperCase name).data, isUpperDigitUnderscore c = true) ∧
    (∀ c ∈ (envVarServiceName upperCase serviceName).data,
      isUpperDigitUnderscore c = true) ∧
    (∀ c ∈ (envVarPortName upperCase portName serviceName).data,
      isUpperDigitUnderscore c = true) := by
  have hfix1 : ∀ c ∈ ("_SERVICE_HOST" : String).data, isUpperDigitUnderscore c = true := by
    decide
  have hfix2 : ∀ c ∈ ("_SERVICE_PORT_" : String).data, isUpperDigitUnderscore c = true := by
    decide
  refine ⟨normalize_upper_only upperCase hup name, ?_, ?_⟩
  · intro c hc
    unfold envVarServiceName at hc
    rw [String.data_append, List.mem_append] at hc
    rcases hc with hc | hc
    · exact normalize_upper_only upperCase hup serviceName c hc
    · exact hfix1 c hc
  · intro c hc
    unfold envVarPortName at hc
    rw [String.data_append, String.data_append, List.mem_append, List.mem_append] at hc
    rcases hc with (hc | hc) | hc
    · exact normalize_upper_only upperCase hup serviceName c hc
    · exact hfix2 c hc
    · exact normalize_upper_only upperCase hup portName c hc

/-- C19 at a case table that sends dotless i to `I` and long s to `S`, on names with
lower-case letters, a hyphen, a dot and both of these runes. -/
theorem env_names_upper_only_witness :
    (∀ c : Char, 0x7F < c.toNat →
      ¬ ('a'.toNat ≤ (asciiImages c).toNat ∧ (asciiImages c).toNat ≤ 'z'.toNat)) ∧
    ((∀ c ∈ (envNormalizeName asciiImages "wıre-ſvc.x").data,
        isUpperDigitUnderscore c = true) ∧
      (∀ c ∈ (envVarServiceName asciiImages "srv-name").data,
        isUpperDigitUnderscore c = true) ∧
      (∀ c ∈ (envVarPortName asciiImages "prt_name" "srv-name").data,
        isUpperDigitUnderscore c = true)) :=
  have hup : ∀ c : Char, 0x7F < c.toNat →
      ¬ ('a'.toNat ≤ (asciiImages c).toNat ∧ (asciiImages c).toNat ≤ 'z'.toNat) := by
    intro c hc
    have ha : 'a'.toNat = 97 := rfl
    have hz : 'z'.toNat = 122 := rfl
    have hI : 'I'.toNat = 73 := rfl
    have hS : 'S'.toNat = 83 := rfl
    unfold asciiImages
    split
    · rw [ha, hI]; omega
    · split
      · rw [ha, hS]; omega
      · rw [ha, hz]; omega
  ⟨hup, env_names_upper_only asciiImages hup "wıre-ſvc.x" "prt_name" "srv-name"⟩

/-- C20. The derivation of names is not injective. The distinct service names
"srv-name" and "srv_name", and likewise "srv.name" and "srvname", give the same host
variable name and, for every port name, the same port variable name; so for every
environment, port name and world the environment resolver returns the same URL for
both names of a pair, with an error for one exactly when for the other. -/
theorem env_names_not_injective {σ : Type} (upperCase : Char → Char)
    (environ : σ → String → Option String) (e : envResolver) (portName : String) (w : σ) :
    ("srv-name" ≠ "srv_name" ∧ "srv.name" ≠ "srvname") ∧
    (envVarServiceName upperCase "srv-name" = envVarServiceName upperCase "srv_name" ∧
      envVarPortName upperCase portName "srv-name"
        = envVarPortName upperCase portName "srv_name" ∧
      (e.Resolve upperCase environ portName "srv-name" w).1.1
        = (e.Resolve upperCase environ portName "srv_name" w).1.1 ∧
      ((e.Resolve upperCase environ portName "srv-name" w).1.2 = none ↔
        (e.Resolve upperCase environ portName "srv_name" w).1.2 = none)) ∧
    (envVarServiceName upperCase "srv.name" = envVarServiceName upperCase "srvname" ∧
      envVarPortName upperCase portName "srv.name"
        = envVarPortName upperCase portName "srvname" ∧
      (e.Resolve upperCase environ portName "srv.name" w).1.1
        = (e.Resolve upperCase environ portName "srvname" w).1.1 ∧
      ((e.Resolve upperCase environ portName "srv.name" w).1.2 = none ↔
        (e.Resolve upperCase environ portName "srvname" w).1.2 = none)) := by
  have h1 : envNormalizeName upperCase "srv-name" = envNormalizeName upperCase "srv_name" :=
    rfl
  have h2 : envNormalizeName upperCase "srv.name" = envNormalizeName upperCase "srvname" :=
    rfl
  have hh1 : envVarServiceName upperCase "srv-name" = envVarServiceName upperCase "srv_name" :=
    rfl
  have hh2 : envVarServiceName upperCase "srv.name" = envVarServiceName upperCase "srvname" :=
    rfl
  have hp1 : envVarPortName upperCase portName "srv-name"
      = envVarPortName upperCase portName "srv_name" := by
    unfold envVarPortName
    rw [h1]
  have hp2 : envVarPortName upperCase portName "srv.name"
      = envVarPortName upperCase portName "srvname" := by
    unfold envVarPortName
    rw [h2]
  refine ⟨⟨by decide, by decide⟩, ⟨hh1, hp1, ?_⟩, ⟨hh2, hp2, ?_⟩⟩
  · exact env_resolve_same_names upperCase environ e portName _ _ w hh1 hp1
  · exact env_resolve_same_names upperCase environ e portName _ _ w hh2 hp2

end discovery
